import Mathlib

/-!
Shallow embedding of the gate execution and aggregation engine of
`ralph-gate` (files `src/types.ts`, `src/output.ts`, `src/hook.ts`,
`src/runner.ts`), together with theorems settling the behavioural
claims about it.

Modelling conventions:
- JS strings are Lean `String`s; `trimEnd` / `slice` are modelled on the
  underlying character list.
- The child process spawned by `runGate` is modelled as the sequence of
  events its handlers receive (`data` chunks on stdout/stderr, a spawn
  `error`, a `close` with an optional exit code), plus the wall-clock
  duration observed at finalization time.  Wall-clock timestamps are
  irrelevant to every claim and are modelled as `""`.
- `runGate` returns `none` when the event sequence never finalizes
  (the real promise would never resolve); `runGates` therefore also
  returns an `Option`, `none` modelling a run that never completes.
-/

namespace RalphGate

/-- `Gate` from src/types.ts restricted to the fields the runner reads
(`name`, `command`, `blocking`); `order`, `enabled`, `description` are
consumed only by the excluded config loader. -/
structure Gate where
  name : String
  command : String
  blocking : Option Bool
deriving Repr, DecidableEq

/-- `GateResult` from src/types.ts.  `exitCode : number | null` becomes
`Option Int`. -/
structure GateResult where
  name : String
  passed : Bool
  exitCode : Option Int
  stdout : String
  stderr : String
  durationMs : Nat
  skipped : Bool
  blocking : Bool
  timestamp : String
deriving Repr, DecidableEq

/-- `GateRunSummary` from src/types.ts. -/
structure GateRunSummary where
  passed : Bool
  timestamp : String
  totalDurationMs : Nat
  results : List GateResult
  firstFailure : Option GateResult
  warnings : List String
deriving Repr, DecidableEq

/-- `HookOutput` from src/types.ts (`decision?: 'block'` kept as an
optional string). -/
structure HookOutput where
  decision : Option String
  reason : Option String
  warnings : Option (List String)
deriving Repr, DecidableEq

/-! ## src/output.ts -/

/-- `MAX_FAILURE_CHARS` from src/output.ts. -/
def MAX_FAILURE_CHARS : Nat := 2000

/-- JavaScript `String.prototype.trimEnd`: drop trailing whitespace. -/
def jsTrimEnd (s : String) : String :=
  String.mk ((s.data.reverse.dropWhile Char.isWhitespace).reverse)

/-- JavaScript `s.slice(-n)` for `0 < n`: the last `min n (length s)`
characters of `s`. -/
def jsSliceLast (s : String) (n : Nat) : String :=
  String.mk (s.data.drop (s.data.length - n))

/-- `formatFailureContext` from src/output.ts: trim trailing whitespace,
return verbatim when at most `MAX_FAILURE_CHARS` long, otherwise keep
only the last `MAX_FAILURE_CHARS` characters. -/
def formatFailureContext (stderr : String) : String :=
  let trimmed := jsTrimEnd stderr
  if trimmed.data.length ≤ MAX_FAILURE_CHARS then trimmed
  else jsSliceLast trimmed MAX_FAILURE_CHARS

/-! ## src/hook.ts -/

/-- Rendering of `failure.exitCode ?? 'null'` inside a JS template
literal. -/
def exitCodeText : Option Int → String
  | some c => toString c
  | none => "null"

/-- `generateHookResponse` from src/hook.ts. -/
def generateHookResponse (summary : GateRunSummary) : HookOutput :=
  let warnings : Option (List String) :=
    if summary.warnings.length > 0 then some summary.warnings else none
  if summary.passed then
    { decision := none, reason := none, warnings := warnings }
  else
    match summary.firstFailure with
    | some failure =>
        let reason := "Gate '" ++ failure.name ++ "' failed (exit "
          ++ exitCodeText failure.exitCode ++ "):\n"
          ++ formatFailureContext failure.stderr
        { decision := some "block", reason := some reason, warnings := warnings }
    | none =>
        { decision := some "block",
          reason := some "Gate run failed without a blocking gate result.",
          warnings := warnings }

/-! ## src/runner.ts -/

/-- One event delivered to the handlers `runGate` installs on the child
process: a stdout data chunk, a stderr data chunk, a spawn-level
`error` (carrying `error.message`), or `close` (carrying the exit code,
`none` when the process was killed by a signal). -/
inductive ProcEvent where
  | dataOut (text : String)
  | dataErr (text : String)
  | error (message : String)
  | close (code : Option Int)
deriving Repr, DecidableEq

/-- An event is finalizing when its handler calls `finalize`:
spawn errors and `close` do, data chunks do not. -/
def ProcEvent.isFinal : ProcEvent → Bool
  | .error _ => true
  | .close _ => true
  | .dataOut _ => false
  | .dataErr _ => false

/-- The external behaviour of one spawned child process: the events its
handlers receive, in order, and the elapsed wall-clock milliseconds at
finalization time. -/
structure GateBehavior where
  events : List ProcEvent
  durationMs : Nat

/-- The mutable local state of one `runGate` invocation: the `stdout`,
`stderr`, `exitCode` accumulators, the `resolved` flag, and the value
the promise has been resolved with (if any). -/
structure ProcState where
  stdout : String
  stderr : String
  exitCode : Option Int
  resolved : Bool
  result : Option GateResult
deriving Repr, DecidableEq

/-- The state of `runGate` before any event arrives. -/
def procState0 : ProcState :=
  { stdout := "", stderr := "", exitCode := none, resolved := false,
    result := none }

/-- The `finalize` closure inside `runGate`: a no-op once `resolved`,
otherwise build the `GateResult` from the accumulators and resolve. -/
def finalizeProc (gate : Gate) (durationMs : Nat) (st : ProcState) : ProcState :=
  if st.resolved then st
  else
    { st with
      resolved := true,
      result := some
        { name := gate.name,
          passed := st.exitCode = some 0,
          exitCode := st.exitCode,
          stdout := st.stdout,
          stderr := st.stderr,
          durationMs := durationMs,
          skipped := false,
          blocking := gate.blocking ≠ some false,
          timestamp := "" } }

/-- One handler firing: `data` events append to the accumulators; a
spawn `error` appends its message to `stderr`, clears `exitCode` and
finalizes; `close` records the exit code and finalizes. -/
def procStep (gate : Gate) (durationMs : Nat) (st : ProcState) :
    ProcEvent → ProcState
  | .dataOut t => { st with stdout := st.stdout ++ t }
  | .dataErr t => { st with stderr := st.stderr ++ t }
  | .error m =>
      finalizeProc gate durationMs
        { st with stderr := st.stderr ++ m, exitCode := none }
  | .close c =>
      finalizeProc gate durationMs { st with exitCode := c }

/-- `runGate` from src/runner.ts, as a function of the process
behaviour: the value the returned promise resolves with, or `none` when
no event ever finalizes (the promise would never resolve). -/
def runGate (gate : Gate) (beh : GateBehavior) : Option GateResult :=
  (beh.events.foldl (procStep gate beh.durationMs) procState0).result

/-- The options record of `runGates`, restricted to the field that
affects control flow.  `verbose`, `shell`, `cwd` and the three callbacks
only configure the external process and progress streaming, which the
behaviour oracle models. -/
structure RunGatesOptions where
  failFast : Option Bool
deriving Repr, DecidableEq

/-- The synthetic result pushed for a skipped gate in `runGates`. -/
def skippedResult (gate : Gate) : GateResult :=
  { name := gate.name,
    passed := true,
    exitCode := none,
    stdout := "",
    stderr := "",
    durationMs := 0,
    skipped := true,
    blocking := gate.blocking ≠ some false,
    timestamp := "" }

/-- The loop of `runGates`: walks the gate list carrying `firstFailure`
and `warnings`; `exec i` is the behaviour of the child process spawned
for the gate at position `i` of the original list.  Returns the final
`results`, `firstFailure` and `warnings`, or `none` when some executed
gate never finalizes. -/
def runGatesGo (failFast : Option Bool) (exec : Nat → GateBehavior) :
    List Gate → Nat → Option GateResult → List String →
    Option (List GateResult × Option GateResult × List String)
  | [], _, ff, ws => some ([], ff, ws)
  | gate :: rest, i, ff, ws =>
      let isBlocking : Bool := gate.blocking ≠ some false
      let shouldSkip : Bool :=
        (decide (failFast ≠ some false)) && ff.isSome && isBlocking
      if shouldSkip then
        (runGatesGo failFast exec rest (i + 1) ff ws).map
          (fun out => (skippedResult gate :: out.1, out.2.1, out.2.2))
      else
        match runGate gate (exec i) with
        | none => none
        | some r =>
            let ff2 := if !r.passed && r.blocking && ff.isNone then some r else ff
            let ws2 := if !r.passed && !r.blocking then ws ++ [r.name] else ws
            (runGatesGo failFast exec rest (i + 1) ff2 ws2).map
              (fun out => (r :: out.1, out.2.1, out.2.2))

/-- `runGates` from src/runner.ts: run the loop from the empty state and
assemble the summary (`passed` iff no first blocking failure was
recorded). -/
def runGates (gates : List Gate) (exec : Nat → GateBehavior)
    (options : RunGatesOptions) : Option GateRunSummary :=
  match runGatesGo options.failFast exec gates 0 none [] with
  | none => none
  | some out =>
      some
        { passed := out.2.1.isNone,
          timestamp := "",
          totalDurationMs := 0,
          results := out.1,
          firstFailure := out.2.1,
          warnings := out.2.2 }

/-- A blocking failure that actually ran: the predicate selecting the
results eligible to be `firstFailure`. -/
def isBlockingFailure (r : GateResult) : Bool :=
  r.blocking && !r.passed && !r.skipped

/-- The stdout text accumulated by the `data` handlers over a sequence
of events. -/
def accumOut (events : List ProcEvent) : String :=
  events.foldl
    (fun s e => match e with | .dataOut t => s ++ t | _ => s) ""

/-- The stderr text accumulated by the `data` handlers over a sequence
of events (spawn errors excluded: their message is appended at
finalization). -/
def accumErr (events : List ProcEvent) : String :=
  events.foldl
    (fun s e => match e with | .dataErr t => s ++ t | _ => s) ""

/-- The warning predicate: a result for a gate that ran (was not
skipped), failed and is non-blocking. -/
def isWarnFailure (r : GateResult) : Bool :=
  !r.skipped && !r.passed && !r.blocking

/-! ### Concrete inputs used to witness the theorems -/

/-- A 4100-character stderr text: 2400 letters A followed by 1700
letters B.  It exceeds the truncation budget the specification states
(4000) as well as the one in the code (2000). -/
def longStderr : String :=
  String.mk (List.replicate 2400 'A' ++ List.replicate 1700 'B')

def gateLint : Gate := { name := "lint", command := "run lint", blocking := none }

def gateTypecheck : Gate :=
  { name := "typecheck", command := "run typecheck", blocking := none }

def gateTest : Gate := { name := "test", command := "run test", blocking := none }

/-- Scenario A of the specification: pass, blocking fail, pass. -/
def gatesABC : List Gate := [gateLint, gateTypecheck, gateTest]

/-- Behaviours for `gatesABC`: the second gate exits 1, the others 0. -/
def execABC : Nat → GateBehavior := fun i =>
  if i = 1 then { events := [ProcEvent.close (some 1)], durationMs := 0 }
  else { events := [ProcEvent.close (some 0)], durationMs := 0 }

/-- Options with `failFast` left `undefined` (fail-fast active). -/
def optsDefault : RunGatesOptions := { failFast := none }

def resultLint : GateResult :=
  { name := "lint", passed := true, exitCode := some 0, stdout := "",
    stderr := "", durationMs := 0, skipped := false, blocking := true,
    timestamp := "" }

def resultTypecheck : GateResult :=
  { name := "typecheck", passed := false, exitCode := some 1, stdout := "",
    stderr := "", durationMs := 0, skipped := false, blocking := true,
    timestamp := "" }

def resultTest : GateResult :=
  { name := "test", passed := true, exitCode := none, stdout := "",
    stderr := "", durationMs := 0, skipped := true, blocking := true,
    timestamp := "" }

/-- The summary `runGates` produces on scenario A. -/
def summaryABC : GateRunSummary :=
  { passed := false, timestamp := "", totalDurationMs := 0,
    results := [resultLint, resultTypecheck, resultTest],
    firstFailure := some resultTypecheck, warnings := [] }

/-- Scenario B of the specification: one failing non-blocking gate. -/
def gateAudit : Gate :=
  { name := "audit", command := "run audit", blocking := some false }

def gatesB : List Gate := [gateAudit]

def execB : Nat → GateBehavior := fun _ =>
  { events := [ProcEvent.close (some 2)], durationMs := 0 }

def resultAudit : GateResult :=
  { name := "audit", passed := false, exitCode := some 2, stdout := "",
    stderr := "", durationMs := 0, skipped := false, blocking := false,
    timestamp := "" }

/-- The summary `runGates` produces on scenario B. -/
def summaryB : GateRunSummary :=
  { passed := true, timestamp := "", totalDurationMs := 0,
    results := [resultAudit], firstFailure := none, warnings := ["audit"] }

/-! ### Helper lemmas about `runGate` -/

lemma procStep_resolved_preserved (gate : Gate) (d : Nat) (st : ProcState)
    (e : ProcEvent) (h : st.resolved = true) :
    (procStep gate d st e).resolved = true ∧
      (procStep gate d st e).result = st.result := by
  cases e <;> simp [procStep, finalizeProc, h]

lemma foldl_result_frozen (gate : Gate) (d : Nat) :
    ∀ (l : List ProcEvent) (st : ProcState), st.resolved = true →
      (l.foldl (procStep gate d) st).resolved = true ∧
        (l.foldl (procStep gate d) st).result = st.result := by
  intro l
  induction l with
  | nil => intro st h; exact ⟨h, rfl⟩
  | cons e rest ih =>
      intro st h
      obtain ⟨h1, h2⟩ := procStep_resolved_preserved gate d st e h
      obtain ⟨h3, h4⟩ := ih (procStep gate d st e) h1
      exact ⟨h3, h4.trans h2⟩

lemma procStep_final_resolved (gate : Gate) (d : Nat) (st : ProcState)
    (e : ProcEvent) (h : e.isFinal = true) :
    (procStep gate d st e).resolved = true := by
  cases e with
  | dataOut t => simp [ProcEvent.isFinal] at h
  | dataErr t => simp [ProcEvent.isFinal] at h
  | error m =>
      by_cases hr : st.resolved = true
      · exact (procStep_resolved_preserved gate d st (.error m) hr).1
      · simp [procStep, finalizeProc, hr]
  | close c =>
      by_cases hr : st.resolved = true
      · exact (procStep_resolved_preserved gate d st (.close c) hr).1
      · simp [procStep, finalizeProc, hr]

lemma procStep_resolved_isSome (gate : Gate) (d : Nat) (st : ProcState)
    (e : ProcEvent) (h : st.resolved = true → st.result.isSome) :
    (procStep gate d st e).resolved = true →
      (procStep gate d st e).result.isSome := by
  intro hres
  by_cases hr : st.resolved = true
  · rw [(procStep_resolved_preserved gate d st e hr).2]; exact h hr
  · cases e with
    | dataOut t =>
        exact absurd hres (by simp [procStep]; simpa using hr)
    | dataErr t =>
        exact absurd hres (by simp [procStep]; simpa using hr)
    | error m => simp [procStep, finalizeProc, hr]
    | close c => simp [procStep, finalizeProc, hr]

lemma foldl_resolved_isSome (gate : Gate) (d : Nat) :
    ∀ (l : List ProcEvent) (st : ProcState),
      (st.resolved = true → st.result.isSome) →
      (l.foldl (procStep gate d) st).resolved = true →
        (l.foldl (procStep gate d) st).result.isSome := by
  intro l
  induction l with
  | nil => intro st h; exact h
  | cons e rest ih =>
      intro st h
      exact ih (procStep gate d st e) (procStep_resolved_isSome gate d st e h)

/-- Folding a sequence of non-finalizing events just accumulates the
data chunks. -/
lemma foldl_no_final (gate : Gate) (d : Nat) :
    ∀ (pre : List ProcEvent) (st : ProcState),
      pre.any ProcEvent.isFinal = false →
      st.resolved = false → st.result = none →
      pre.foldl (procStep gate d) st =
        { stdout :=
            pre.foldl
              (fun s e => match e with | .dataOut t => s ++ t | _ => s)
              st.stdout,
          stderr :=
            pre.foldl
              (fun s e => match e with | .dataErr t => s ++ t | _ => s)
              st.stderr,
          exitCode := st.exitCode,
          resolved := false,
          result := none } := by
  intro pre
  induction pre with
  | nil => intro st _ h1 h2; simp [List.foldl]; cases st; simp_all
  | cons e rest ih =>
      intro st hany h1 h2
      rw [List.any_cons, Bool.or_eq_false_iff] at hany
      cases e with
      | dataOut t =>
          simpa [List.foldl, procStep] using
            ih { st with stdout := st.stdout ++ t } hany.2 h1 h2
      | dataErr t =>
          simpa [List.foldl, procStep] using
            ih { st with stderr := st.stderr ++ t } hany.2 h1 h2
      | error m => simp [ProcEvent.isFinal] at hany
      | close c => simp [ProcEvent.isFinal] at hany

/-- `runGate` when the first finalizing event is a spawn `error`: the
promise resolves with a failing result whose stderr is the accumulated
stderr followed by the error message, and whose exit code is `none`. -/
lemma runGate_error_spec (gate : Gate) (d : Nat) (pre : List ProcEvent)
    (m : String) (post : List ProcEvent)
    (hpre : pre.any ProcEvent.isFinal = false) :
    runGate gate ⟨pre ++ ProcEvent.error m :: post, d⟩ =
      some
        { name := gate.name,
          passed := false,
          exitCode := none,
          stdout := accumOut pre,
          stderr := accumErr pre ++ m,
          durationMs := d,
          skipped := false,
          blocking := gate.blocking ≠ some false,
          timestamp := "" } := by
  show (List.foldl (procStep gate d) procState0
      (pre ++ ProcEvent.error m :: post)).result = _
  rw [List.foldl_append]
  rw [foldl_no_final gate d pre procState0 hpre rfl rfl]
  rw [List.foldl_cons]
  have hstep :
      procStep gate d
        { stdout := accumOut pre, stderr := accumErr pre,
          exitCode := none, resolved := false, result := none }
        (ProcEvent.error m) =
      { stdout := accumOut pre, stderr := accumErr pre ++ m,
        exitCode := none, resolved := true,
        result := some
          { name := gate.name, passed := false, exitCode := none,
            stdout := accumOut pre, stderr := accumErr pre ++ m,
            durationMs := d, skipped := false,
            blocking := gate.blocking ≠ some false, timestamp := "" } } := by
    simp [procStep, finalizeProc]
  show (List.foldl (procStep gate d)
      (procStep gate d
        { stdout := accumOut pre, stderr := accumErr pre,
          exitCode := none, resolved := false, result := none }
        (ProcEvent.error m)) post).result = _
  rw [hstep]
  rw [(foldl_result_frozen gate d post _ rfl).2]

/-- `runGate` when the first finalizing event is `close`: the promise
resolves with the accumulated output, the delivered exit code, and
`passed` iff that code is zero. -/
lemma runGate_close_spec (gate : Gate) (d : Nat) (pre : List ProcEvent)
    (c : Option Int) (post : List ProcEvent)
    (hpre : pre.any ProcEvent.isFinal = false) :
    runGate gate ⟨pre ++ ProcEvent.close c :: post, d⟩ =
      some
        { name := gate.name,
          passed := decide (c = some 0),
          exitCode := c,
          stdout := accumOut pre,
          stderr := accumErr pre,
          durationMs := d,
          skipped := false,
          blocking := gate.blocking ≠ some false,
          timestamp := "" } := by
  show (List.foldl (procStep gate d) procState0
      (pre ++ ProcEvent.close c :: post)).result = _
  rw [List.foldl_append]
  rw [foldl_no_final gate d pre procState0 hpre rfl rfl]
  rw [List.foldl_cons]
  have hstep :
      procStep gate d
        { stdout := accumOut pre, stderr := accumErr pre,
          exitCode := none, resolved := false, result := none }
        (ProcEvent.close c) =
      { stdout := accumOut pre, stderr := accumErr pre,
        exitCode := c, resolved := true,
        result := some
          { name := gate.name, passed := decide (c = some 0),
            exitCode := c,
            stdout := accumOut pre, stderr := accumErr pre,
            durationMs := d, skipped := false,
            blocking := gate.blocking ≠ some false, timestamp := "" } } := by
    simp [procStep, finalizeProc]
  show (List.foldl (procStep gate d)
      (procStep gate d
        { stdout := accumOut pre, stderr := accumErr pre,
          exitCode := none, resolved := false, result := none }
        (ProcEvent.close c)) post).result = _
  rw [hstep]
  rw [(foldl_result_frozen gate d post _ rfl).2]

/-- Any property holding of every result `finalize` can build holds of
every result the event fold can resolve with. -/
lemma foldl_result_prop (gate : Gate) (d : Nat) (P : GateResult → Prop)
    (hP : ∀ (so se : String) (ec : Option Int),
      P { name := gate.name, passed := decide (ec = some 0), exitCode := ec,
          stdout := so, stderr := se, durationMs := d, skipped := false,
          blocking := gate.blocking ≠ some false, timestamp := "" }) :
    ∀ (l : List ProcEvent) (st : ProcState),
      (∀ r, st.result = some r → P r) →
      ∀ r, (l.foldl (procStep gate d) st).result = some r → P r := by
  intro l
  induction l with
  | nil => intro st h; exact h
  | cons e rest ih =>
      intro st h
      refine ih (procStep gate d st e) ?_
      intro r hr
      cases e with
      | dataOut t => exact h r hr
      | dataErr t => exact h r hr
      | error m =>
          by_cases hres : st.resolved = true
          · rw [(procStep_resolved_preserved gate d st (.error m) hres).2] at hr
            exact h r hr
          · simp only [procStep, finalizeProc, Bool.not_eq_true] at hr
            rw [if_neg (by simpa using hres)] at hr
            simp only [Option.some_inj] at hr
            subst hr
            exact hP st.stdout (st.stderr ++ m) none
      | close c =>
          by_cases hres : st.resolved = true
          · rw [(procStep_resolved_preserved gate d st (.close c) hres).2] at hr
            exact h r hr
          · simp only [procStep, finalizeProc, Bool.not_eq_true] at hr
            rw [if_neg (by simpa using hres)] at hr
            simp only [Option.some_inj] at hr
            subst hr
            exact hP st.stdout st.stderr c

/-- Structural facts about every result `runGate` can return: the gate's
name is echoed, the result is not skipped, `blocking` mirrors the gate's
flag, and `passed` is exactly "exit code is zero". -/
lemma runGate_some_fields (gate : Gate) (beh : GateBehavior)
    (r : GateResult) (h : runGate gate beh = some r) :
    r.name = gate.name ∧ r.skipped = false ∧
      r.blocking = decide (gate.blocking ≠ some false) ∧
      r.passed = decide (r.exitCode = some 0) := by
  refine foldl_result_prop gate beh.durationMs
    (fun r => r.name = gate.name ∧ r.skipped = false ∧
      r.blocking = decide (gate.blocking ≠ some false) ∧
      r.passed = decide (r.exitCode = some 0)) ?_ beh.events procState0
    (by intro r hr; simp [procState0] at hr) r h
  intro so se ec
  exact ⟨rfl, rfl, rfl, rfl⟩

/-- A finalizing event anywhere in the sequence resolves the promise. -/
lemma foldl_any_final_resolved (gate : Gate) (d : Nat) :
    ∀ (l : List ProcEvent) (st : ProcState),
      l.any ProcEvent.isFinal = true →
      (l.foldl (procStep gate d) st).resolved = true := by
  intro l
  induction l with
  | nil => intro st h; simp at h
  | cons e rest ih =>
      intro st h
      rw [List.any_cons, Bool.or_eq_true] at h
      rcases h with h | h
      · exact (foldl_result_frozen gate d rest _
          (procStep_final_resolved gate d st e h)).1
      · exact ih _ h

/-- `runGate` resolves whenever the behaviour contains a finalizing
event. -/
lemma runGate_isSome (gate : Gate) (beh : GateBehavior)
    (h : beh.events.any ProcEvent.isFinal = true) :
    (runGate gate beh).isSome := by
  unfold runGate
  exact foldl_resolved_isSome gate beh.durationMs beh.events procState0
    (by intro hfalse; simp [procState0] at hfalse)
    (foldl_any_final_resolved gate beh.durationMs beh.events procState0 h)

/-! ### Helper lemmas about the `runGates` loop -/

lemma go_names (ff : Option Bool) (exec : Nat → GateBehavior) :
    ∀ (gates : List Gate) (i : Nat) (ffail : Option GateResult)
      (ws : List String) (rs : List GateResult) (f : Option GateResult)
      (w : List String),
      runGatesGo ff exec gates i ffail ws = some (rs, f, w) →
      rs.map GateResult.name = gates.map Gate.name := by
  intro gates
  induction gates with
  | nil =>
      intro i ffail ws rs f w h
      simp only [runGatesGo, Option.some_inj, Prod.mk.injEq] at h
      rw [← h.1]
      rfl
  | cons gate rest ih =>
      intro i ffail ws rs f w h
      simp only [runGatesGo] at h
      split at h
      · cases hrec : runGatesGo ff exec rest (i + 1) ffail ws with
        | none => rw [hrec] at h; exact absurd h (by simp)
        | some out =>
            rw [hrec] at h
            simp only [Option.map_some', Option.some_inj, Prod.mk.injEq] at h
            obtain ⟨h1, h2, h3⟩ := h
            subst h1
            simp only [List.map_cons]
            rw [ih (i + 1) ffail ws out.1 out.2.1 out.2.2 (by rw [hrec])]
            rfl
      · cases hr : runGate gate (exec i) with
        | none => rw [hr] at h; exact absurd h (by simp)
        | some r =>
            rw [hr] at h
            dsimp only at h
            cases hrec : runGatesGo ff exec rest (i + 1)
                (if !r.passed && r.blocking && ffail.isNone then some r
                 else ffail)
                (if !r.passed && !r.blocking then ws ++ [r.name] else ws) with
            | none => rw [hrec] at h; exact absurd h (by simp)
            | some out =>
                rw [hrec] at h
                simp only [Option.map_some', Option.some_inj,
                  Prod.mk.injEq] at h
                obtain ⟨h1, h2, h3⟩ := h
                subst h1
                simp only [List.map_cons]
                rw [ih (i + 1) _ _ out.1 out.2.1 out.2.2 (by rw [hrec]),
                  (runGate_some_fields gate (exec i) r hr).1]

lemma go_skipped_placeholder (ff : Option Bool) (exec : Nat → GateBehavior) :
    ∀ (gates : List Gate) (i : Nat) (ffail : Option GateResult)
      (ws : List String) (rs : List GateResult) (f : Option GateResult)
      (w : List String),
      runGatesGo ff exec gates i ffail ws = some (rs, f, w) →
      ∀ r ∈ rs, r.skipped = true →
        r.passed = true ∧ r.exitCode = none ∧ r.durationMs = 0 ∧
          r.stdout = "" ∧ r.stderr = "" := by
  intro gates
  induction gates with
  | nil =>
      intro i ffail ws rs f w h
      simp only [runGatesGo, Option.some_inj, Prod.mk.injEq] at h
      rw [← h.1]
      intro r hr
      exact absurd hr (List.not_mem_nil r)
  | cons gate rest ih =>
      intro i ffail ws rs f w h
      simp only [runGatesGo] at h
      split at h
      · cases hrec : runGatesGo ff exec rest (i + 1) ffail ws with
        | none => rw [hrec] at h; exact absurd h (by simp)
        | some out =>
            rw [hrec] at h
            simp only [Option.map_some', Option.some_inj, Prod.mk.injEq] at h
            obtain ⟨h1, h2, h3⟩ := h
            subst h1
            intro r hr hskip
            rcases List.mem_cons.mp hr with hr | hr
            · subst hr
              exact ⟨rfl, rfl, rfl, rfl, rfl⟩
            · exact ih (i + 1) ffail ws out.1 out.2.1 out.2.2
                (by rw [hrec]) r hr hskip
      · cases hr : runGate gate (exec i) with
        | none => rw [hr] at h; exact absurd h (by simp)
        | some r0 =>
            rw [hr] at h
            dsimp only at h
            cases hrec : runGatesGo ff exec rest (i + 1)
                (if !r0.passed && r0.blocking && ffail.isNone then some r0
                 else ffail)
                (if !r0.passed && !r0.blocking then ws ++ [r0.name] else ws) with
            | none => rw [hrec] at h; exact absurd h (by simp)
            | some out =>
                rw [hrec] at h
                simp only [Option.map_some', Option.some_inj,
                  Prod.mk.injEq] at h
                obtain ⟨h1, h2, h3⟩ := h
                subst h1
                intro r hrm hskip
                rcases List.mem_cons.mp hrm with hrm | hrm
                · subst hrm
                  exact absurd hskip
                    (by rw [(runGate_some_fields gate (exec i) r hr).2.1]; simp)
                · exact ih (i + 1) _ _ out.1 out.2.1 out.2.2
                    (by rw [hrec]) r hrm hskip

/-- Once a first failure is recorded it is never replaced
(first-failure-wins). -/
lemma go_ff_some (ff : Option Bool) (exec : Nat → GateBehavior) :
    ∀ (gates : List Gate) (i : Nat) (x : GateResult)
      (ws : List String) (rs : List GateResult) (f : Option GateResult)
      (w : List String),
      runGatesGo ff exec gates i (some x) ws = some (rs, f, w) →
      f = some x := by
  intro gates
  induction gates with
  | nil =>
      intro i x ws rs f w h
      simp only [runGatesGo, Option.some_inj, Prod.mk.injEq] at h
      exact h.2.1.symm
  | cons gate rest ih =>
      intro i x ws rs f w h
      simp only [runGatesGo] at h
      split at h
      · cases hrec : runGatesGo ff exec rest (i + 1) (some x) ws with
        | none => rw [hrec] at h; exact absurd h (by simp)
        | some out =>
            rw [hrec] at h
            simp only [Option.map_some', Option.some_inj, Prod.mk.injEq] at h
            rw [← h.2.1]
            exact ih (i + 1) x ws out.1 out.2.1 out.2.2 (by rw [hrec])
      · cases hr : runGate gate (exec i) with
        | none => rw [hr] at h; exact absurd h (by simp)
        | some r =>
            rw [hr] at h
            dsimp only at h
            rw [show ((some x : Option GateResult).isNone) = false from rfl,
              Bool.and_false] at h
            simp only [Bool.false_eq_true, if_false] at h
            cases hrec : runGatesGo ff exec rest (i + 1) (some x)
                (if !r.passed && !r.blocking then ws ++ [r.name] else ws) with
            | none => rw [hrec] at h; exact absurd h (by simp)
            | some out =>
                rw [hrec] at h
                simp only [Option.map_some', Option.some_inj,
                  Prod.mk.injEq] at h
                rw [← h.2.1]
                exact ih (i + 1) x _ out.1 out.2.1 out.2.2 (by rw [hrec])

/-- Starting with no recorded failure, the loop's final first failure is
the earliest blocking, failing, non-skipped result. -/
lemma go_ff_none (ff : Option Bool) (exec : Nat → GateBehavior) :
    ∀ (gates : List Gate) (i : Nat)
      (ws : List String) (rs : List GateResult) (f : Option GateResult)
      (w : List String),
      runGatesGo ff exec gates i none ws = some (rs, f, w) →
      f = rs.find? isBlockingFailure := by
  intro gates
  induction gates with
  | nil =>
      intro i ws rs f w h
      simp only [runGatesGo, Option.some_inj, Prod.mk.injEq] at h
      rw [← h.1, ← h.2.1]
      rfl
  | cons gate rest ih =>
      intro i ws rs f w h
      simp only [runGatesGo] at h
      split at h
      next hcond =>
        rw [show ((none : Option GateResult).isSome) = false from rfl,
          Bool.and_false, Bool.false_and] at hcond
        exact absurd hcond (by simp)
      next hcond =>
        cases hr : runGate gate (exec i) with
        | none => rw [hr] at h; exact absurd h (by simp)
        | some r =>
            rw [hr] at h
            dsimp only at h
            obtain ⟨hname, hskip, hblock, hpass⟩ :=
              runGate_some_fields gate (exec i) r hr
            rw [show ((none : Option GateResult).isNone) = true from rfl,
              Bool.and_true] at h
            by_cases hfail : (!r.passed && r.blocking) = true
            · rw [if_pos hfail] at h
              cases hrec : runGatesGo ff exec rest (i + 1) (some r)
                  (if !r.passed && !r.blocking then ws ++ [r.name] else ws) with
              | none => rw [hrec] at h; exact absurd h (by simp)
              | some out =>
                  rw [hrec] at h
                  simp only [Option.map_some', Option.some_inj,
                    Prod.mk.injEq] at h
                  rw [← h.1, ← h.2.1]
                  rw [go_ff_some ff exec rest (i + 1) r _ out.1 out.2.1
                    out.2.2 (by rw [hrec])]
                  rw [List.find?_cons_of_pos]
                  rw [Bool.and_eq_true] at hfail
                  simp [isBlockingFailure, hfail.1, hfail.2, hskip]
            · rw [if_neg hfail] at h
              cases hrec : runGatesGo ff exec rest (i + 1) none
                  (if !r.passed && !r.blocking then ws ++ [r.name] else ws) with
              | none => rw [hrec] at h; exact absurd h (by simp)
              | some out =>
                  rw [hrec] at h
                  simp only [Option.map_some', Option.some_inj,
                    Prod.mk.injEq] at h
                  rw [← h.1, ← h.2.1]
                  rw [ih (i + 1) _ out.1 out.2.1 out.2.2 (by rw [hrec])]
                  rw [List.find?_cons_of_neg]
                  simp only [isBlockingFailure, hskip, Bool.not_false,
                    Bool.and_true]
                  intro habs
                  rw [Bool.and_eq_true] at habs
                  exact hfail ((Bool.and_eq_true _ _).mpr ⟨habs.2, habs.1⟩)

/-- The final warning list extends the incoming one with the names of
the non-blocking results that ran and failed, in order. -/
lemma go_warnings (ff : Option Bool) (exec : Nat → GateBehavior) :
    ∀ (gates : List Gate) (i : Nat) (ffail : Option GateResult)
      (ws : List String) (rs : List GateResult) (f : Option GateResult)
      (w : List String),
      runGatesGo ff exec gates i ffail ws = some (rs, f, w) →
      w = ws ++ (rs.filter isWarnFailure).map GateResult.name := by
  intro gates
  induction gates with
  | nil =>
      intro i ffail ws rs f w h
      simp only [runGatesGo, Option.some_inj, Prod.mk.injEq] at h
      rw [← h.1, ← h.2.2]
      simp
  | cons gate rest ih =>
      intro i ffail ws rs f w h
      simp only [runGatesGo] at h
      split at h
      · cases hrec : runGatesGo ff exec rest (i + 1) ffail ws with
        | none => rw [hrec] at h; exact absurd h (by simp)
        | some out =>
            rw [hrec] at h
            simp only [Option.map_some', Option.some_inj, Prod.mk.injEq] at h
            rw [← h.1, ← h.2.2]
            rw [ih (i + 1) ffail ws out.1 out.2.1 out.2.2 (by rw [hrec])]
            rw [List.filter_cons_of_neg
              (by simp [isWarnFailure, skippedResult])]
      · cases hr : runGate gate (exec i) with
        | none => rw [hr] at h; exact absurd h (by simp)
        | some r =>
            rw [hr] at h
            dsimp only at h
            obtain ⟨hname, hskip, hblock, hpass⟩ :=
              runGate_some_fields gate (exec i) r hr
            cases hrec : runGatesGo ff exec rest (i + 1)
                (if !r.passed && r.blocking && ffail.isNone then some r
                 else ffail)
                (if !r.passed && !r.blocking then ws ++ [r.name] else ws) with
            | none => rw [hrec] at h; exact absurd h (by simp)
            | some out =>
                rw [hrec] at h
                simp only [Option.map_some', Option.some_inj,
                  Prod.mk.injEq] at h
                rw [← h.1, ← h.2.2]
                rw [ih (i + 1) _ _ out.1 out.2.1 out.2.2 (by rw [hrec])]
                by_cases hw : (!r.passed && !r.blocking) = true
                · rw [if_pos hw]
                  rw [List.filter_cons_of_pos
                    (by simp only [isWarnFailure, hskip, Bool.not_false,
                      Bool.true_and]; exact hw)]
                  rw [List.map_cons, List.append_assoc]
                  rfl
                · rw [if_neg hw]
                  rw [List.filter_cons_of_neg
                    (by simp only [isWarnFailure, hskip, Bool.not_false,
                      Bool.true_and]; exact hw)]

/-- How the recorded first failure evolves over one executed gate, seen
through `Option.isSome`. -/
lemma ff_update_isSome (r : GateResult) (ffail : Option GateResult)
    (hskip : r.skipped = false) :
    (if !r.passed && r.blocking && ffail.isNone then some r
     else ffail).isSome = (ffail.isSome || isBlockingFailure r) := by
  cases hp : r.passed <;> cases hb : r.blocking <;> cases ffail <;>
    simp [isBlockingFailure, hskip, hp, hb]

/-- The per-index skip characterization: a result is skipped exactly
when fail-fast is active, its gate is blocking, and a blocking failure
was already recorded (either carried in from the initial state or
produced by an earlier result of this very run). -/
lemma go_skip_iff (ff : Option Bool) (exec : Nat → GateBehavior) :
    ∀ (gates : List Gate) (i : Nat) (ffail : Option GateResult)
      (ws : List String) (rs : List GateResult) (f : Option GateResult)
      (w : List String),
      runGatesGo ff exec gates i ffail ws = some (rs, f, w) →
      ∀ (k : Nat) (hk : k < rs.length),
        rs[k].skipped = true ↔
          (ff ≠ some false ∧ rs[k].blocking = true ∧
            (ffail.isSome = true ∨
              (rs.take k).any isBlockingFailure = true)) := by
  intro gates
  induction gates with
  | nil =>
      intro i ffail ws rs f w h
      simp only [runGatesGo, Option.some_inj, Prod.mk.injEq] at h
      rw [← h.1]
      intro k hk
      exact absurd hk (by simp)
  | cons gate rest ih =>
      intro i ffail ws rs f w h
      simp only [runGatesGo] at h
      split at h
      next hcond =>
        simp only [Bool.and_eq_true] at hcond
        obtain ⟨⟨hc1, hc2⟩, hc3⟩ := hcond
        cases hrec : runGatesGo ff exec rest (i + 1) ffail ws with
        | none => rw [hrec] at h; exact absurd h (by simp)
        | some out =>
            rw [hrec] at h
            simp only [Option.map_some', Option.some_inj, Prod.mk.injEq] at h
            rw [← h.1]
            intro k hk
            cases k with
            | zero =>
                refine iff_of_true rfl ⟨of_decide_eq_true hc1, hc3, Or.inl hc2⟩
            | succ k =>
                simp only [List.getElem_cons_succ, List.take_succ_cons,
                  List.any_cons]
                rw [show isBlockingFailure (skippedResult gate) = false from
                  by simp [isBlockingFailure, skippedResult]]
                rw [Bool.false_or]
                exact ih (i + 1) ffail ws out.1 out.2.1 out.2.2
                  (by rw [hrec]) k (by simpa using hk)
      next hcond =>
        cases hr : runGate gate (exec i) with
        | none => rw [hr] at h; exact absurd h (by simp)
        | some r =>
            rw [hr] at h
            dsimp only at h
            obtain ⟨hname, hskip, hblock, hpass⟩ :=
              runGate_some_fields gate (exec i) r hr
            cases hrec : runGatesGo ff exec rest (i + 1)
                (if !r.passed && r.blocking && ffail.isNone then some r
                 else ffail)
                (if !r.passed && !r.blocking then ws ++ [r.name] else ws) with
            | none => rw [hrec] at h; exact absurd h (by simp)
            | some out =>
                rw [hrec] at h
                simp only [Option.map_some', Option.some_inj,
                  Prod.mk.injEq] at h
                rw [← h.1]
                intro k hk
                cases k with
                | zero =>
                    simp only [List.getElem_cons_zero, List.take_zero,
                      List.any_nil, Bool.false_eq_true, or_false]
                    rw [hskip]
                    refine iff_of_false (by simp) ?_
                    rintro ⟨ha, hb, hc⟩
                    refine hcond ?_
                    simp only [Bool.and_eq_true]
                    exact ⟨⟨decide_eq_true ha, hc⟩, by rw [← hblock]; exact hb⟩
                | succ k =>
                    simp only [List.getElem_cons_succ, List.take_succ_cons,
                      List.any_cons]
                    have hk' : k < out.1.length := by simpa using hk
                    rw [ih (i + 1) _ _ out.1 out.2.1 out.2.2
                      (by rw [hrec]) k hk']
                    rw [ff_update_isSome r ffail hskip]
                    simp only [Bool.or_eq_true, or_assoc]

/-! ### Helper lemmas about the truncator on the concrete long input -/

/-- `longStderr` has no trailing whitespace, so `trimEnd` keeps it. -/
lemma jsTrimEnd_longStderr : jsTrimEnd longStderr = longStderr := by
  show String.mk _ = _
  rw [show longStderr.data =
    List.replicate 2400 'A' ++ List.replicate 1700 'B' from rfl]
  rw [List.reverse_append, List.reverse_replicate, List.reverse_replicate]
  rw [show (1700 : Nat) = 1699 + 1 from rfl, List.replicate_succ,
    List.cons_append, List.dropWhile_cons]
  rw [show ('B'.isWhitespace) = false from rfl]
  simp only [Bool.false_eq_true, if_false]
  rw [← List.cons_append, ← List.replicate_succ, List.reverse_append,
    List.reverse_replicate, List.reverse_replicate]
  rfl

/-! ## The claims -/

/-- C1: in `runGates` a gate's result is skipped exactly when fail-fast
is active (`failFast` not explicitly `false`), the gate is blocking, and
an earlier result of the run is a blocking, non-skipped failure; in
particular non-blocking gates are never skipped and with
`failFast = false` nothing is ever skipped. -/
theorem c1_fail_fast_skip (gates : List Gate) (exec : Nat → GateBehavior)
    (opts : RunGatesOptions) (s : GateRunSummary)
    (h : runGates gates exec opts = some s) (k : Nat)
    (hk : k < s.results.length) :
    ((s.results.get ⟨k, hk⟩).skipped = true ↔
      (opts.failFast ≠ some false ∧ (s.results.get ⟨k, hk⟩).blocking = true ∧
        (s.results.take k).any isBlockingFailure = true)) ∧
    (opts.failFast = some false → (s.results.get ⟨k, hk⟩).skipped = false) ∧
    ((s.results.get ⟨k, hk⟩).blocking = false →
      (s.results.get ⟨k, hk⟩).skipped = false) := by
  unfold runGates at h
  cases hgo : runGatesGo opts.failFast exec gates 0 none [] with
  | none => rw [hgo] at h; exact absurd h (by simp)
  | some out =>
      rw [hgo] at h
      simp only [Option.some_inj] at h
      subst h
      have hk' : k < out.1.length := hk
      have hiff := go_skip_iff opts.failFast exec gates 0 none [] out.1
        out.2.1 out.2.2 (by rw [hgo]) k hk'
      simp only [Option.isSome_none, Bool.false_eq_true, false_or] at hiff
      show ((out.1.get ⟨k, hk'⟩).skipped = true ↔
          (opts.failFast ≠ some false ∧
            (out.1.get ⟨k, hk'⟩).blocking = true ∧
            (out.1.take k).any isBlockingFailure = true)) ∧
        (opts.failFast = some false → (out.1.get ⟨k, hk'⟩).skipped = false) ∧
        ((out.1.get ⟨k, hk'⟩).blocking = false →
          (out.1.get ⟨k, hk'⟩).skipped = false)
      simp only [List.get_eq_getElem]
      refine ⟨hiff, ?_, ?_⟩
      · intro hff
        by_contra hne
        rw [Bool.not_eq_false] at hne
        exact absurd hff (hiff.mp hne).1
      · intro hbl
        by_contra hne
        rw [Bool.not_eq_false] at hne
        have hb := (hiff.mp hne).2.1
        rw [hbl] at hb
        exact absurd hb (by simp)

/-- C1 witness: in scenario A (pass, blocking fail, pass) with fail-fast
active, the third gate's result is skipped. -/
theorem c1_fail_fast_skip_witness :
    (summaryABC.results.get ⟨2, by decide⟩).skipped = true :=
  ((c1_fail_fast_skip gatesABC execABC optsDefault summaryABC rfl 2
    (by decide)).1).mpr (by decide)

/-- C2: a run summary passes exactly when no first failure was recorded,
and the recorded first failure is the earliest blocking, failing,
non-skipped result (first-failure-wins). -/
theorem c2_first_failure (gates : List Gate) (exec : Nat → GateBehavior)
    (opts : RunGatesOptions) (s : GateRunSummary)
    (h : runGates gates exec opts = some s) :
    (s.passed = true ↔ s.firstFailure = none) ∧
      s.firstFailure = s.results.find? isBlockingFailure := by
  unfold runGates at h
  cases hgo : runGatesGo opts.failFast exec gates 0 none [] with
  | none => rw [hgo] at h; exact absurd h (by simp)
  | some out =>
      rw [hgo] at h
      simp only [Option.some_inj] at h
      subst h
      exact ⟨Option.isNone_iff_eq_none,
        go_ff_none opts.failFast exec gates 0 [] out.1 out.2.1 out.2.2
          (by rw [hgo])⟩

/-- C2 witness: the scenario A summary fails and its first failure is
the earliest blocking failure of its results. -/
theorem c2_first_failure_witness :
    (summaryABC.passed = true ↔ summaryABC.firstFailure = none) ∧
      summaryABC.firstFailure = summaryABC.results.find? isBlockingFailure :=
  c2_first_failure gatesABC execABC optsDefault summaryABC rfl

/-- C3: the results list matches the gate list in length and names
(order preserved), and every skipped result is the synthetic
placeholder: passing, no exit code, zero duration, empty output. -/
theorem c3_results_shape (gates : List Gate) (exec : Nat → GateBehavior)
    (opts : RunGatesOptions) (s : GateRunSummary)
    (h : runGates gates exec opts = some s) :
    s.results.length = gates.length ∧
      s.results.map GateResult.name = gates.map Gate.name ∧
      ∀ r ∈ s.results, r.skipped = true →
        r.passed = true ∧ r.exitCode = none ∧ r.durationMs = 0 ∧
          r.stdout = "" ∧ r.stderr = "" := by
  unfold runGates at h
  cases hgo : runGatesGo opts.failFast exec gates 0 none [] with
  | none => rw [hgo] at h; exact absurd h (by simp)
  | some out =>
      rw [hgo] at h
      simp only [Option.some_inj] at h
      subst h
      have hnames := go_names opts.failFast exec gates 0 none [] out.1
        out.2.1 out.2.2 (by rw [hgo])
      refine ⟨?_, hnames, ?_⟩
      · have := congrArg List.length hnames
        simpa using this
      · exact go_skipped_placeholder opts.failFast exec gates 0 none []
          out.1 out.2.1 out.2.2 (by rw [hgo])

/-- C3 witness: on scenario A the three results carry the three gate
names in order and the skipped result is the placeholder. -/
theorem c3_results_shape_witness :
    summaryABC.results.length = gatesABC.length ∧
      summaryABC.results.map GateResult.name = gatesABC.map Gate.name ∧
      (resultTest.passed = true ∧ resultTest.exitCode = none ∧
        resultTest.durationMs = 0 ∧ resultTest.stdout = "" ∧
        resultTest.stderr = "") :=
  ⟨(c3_results_shape gatesABC execABC optsDefault summaryABC rfl).1,
    (c3_results_shape gatesABC execABC optsDefault summaryABC rfl).2.1,
    (c3_results_shape gatesABC execABC optsDefault summaryABC rfl).2.2
      resultTest (by decide) rfl⟩

/-- C4: the warnings list is exactly the names of the non-blocking
results that ran and failed, in run order, and is empty when there is no
such result. -/
theorem c4_warnings_exact (gates : List Gate) (exec : Nat → GateBehavior)
    (opts : RunGatesOptions) (s : GateRunSummary)
    (h : runGates gates exec opts = some s) :
    s.warnings = (s.results.filter isWarnFailure).map GateResult.name ∧
      ((∀ r ∈ s.results, isWarnFailure r = false) → s.warnings = []) := by
  unfold runGates at h
  cases hgo : runGatesGo opts.failFast exec gates 0 none [] with
  | none => rw [hgo] at h; exact absurd h (by simp)
  | some out =>
      rw [hgo] at h
      simp only [Option.some_inj] at h
      subst h
      have hw := go_warnings opts.failFast exec gates 0 none [] out.1
        out.2.1 out.2.2 (by rw [hgo])
      rw [List.nil_append] at hw
      refine ⟨hw, ?_⟩
      intro hnone
      show out.2.2 = []
      rw [hw, List.filter_eq_nil_iff.mpr
        (by intro a ha; rw [hnone a ha]; simp)]
      rfl

/-- C4 witness: on scenario B (one failing non-blocking gate) the
warnings list is exactly the filter-and-map of the results, namely
the single name audit. -/
theorem c4_warnings_exact_witness :
    summaryB.warnings =
        (summaryB.results.filter isWarnFailure).map GateResult.name ∧
      summaryB.warnings = ["audit"] :=
  ⟨(c4_warnings_exact gatesB execB optsDefault summaryB rfl).1, by decide⟩

/-- C5 (code evaluation at the failing input): on a 4100-character
stderr the truncator in src/output.ts returns only the final 2000
characters — no 60%-of-4000 head, no omission marker — contradicting
the claimed head/marker/tail shape. -/
theorem c5_truncation_code_eval :
    formatFailureContext longStderr =
      String.mk (List.replicate 300 'A' ++ List.replicate 1700 'B') ∧
    (formatFailureContext longStderr).data.length = 2000 := by
  have hdata : longStderr.data =
      List.replicate 2400 'A' ++ List.replicate 1700 'B' := rfl
  have hlen : longStderr.data.length = 4100 := by
    rw [hdata, List.length_append, List.length_replicate,
      List.length_replicate]
  have hmain : formatFailureContext longStderr =
      String.mk (List.replicate 300 'A' ++ List.replicate 1700 'B') := by
    show (if (jsTrimEnd longStderr).data.length ≤ MAX_FAILURE_CHARS
      then jsTrimEnd longStderr
      else jsSliceLast (jsTrimEnd longStderr) MAX_FAILURE_CHARS) = _
    rw [jsTrimEnd_longStderr, hlen,
      if_neg (by rw [MAX_FAILURE_CHARS]; norm_num)]
    unfold jsSliceLast
    rw [hlen, hdata, MAX_FAILURE_CHARS]
    rw [show (4100 - 2000 : Nat) = 2100 from rfl]
    rw [List.drop_append_of_le_length
      (by rw [List.length_replicate]; norm_num), List.drop_replicate]
  refine ⟨hmain, ?_⟩
  rw [hmain]
  show (List.replicate 300 'A' ++ List.replicate 1700 'B').length = 2000
  rw [List.length_append, List.length_replicate, List.length_replicate]

/-- C6 (code evaluation at the failing input): on empty or
whitespace-only stderr the truncator in src/output.ts returns the empty
string, not a literal no-output marker. -/
theorem c6_empty_output_code_eval :
    formatFailureContext "" = "" ∧ formatFailureContext "  \n" = "" := by
  constructor <;> rfl

/-- C7: the hook payload carries the warnings list exactly when it is
non-empty; a passing summary yields no decision and no reason; a failing
summary with a recorded first failure yields a block decision whose
reason is the exact gate-name/exit-code line followed by the truncated
stderr of that failure. -/
theorem c7_hook_response (s : GateRunSummary) :
    ((generateHookResponse s).warnings =
      if s.warnings.length > 0 then some s.warnings else none) ∧
    (s.passed = true → (generateHookResponse s).decision = none ∧
      (generateHookResponse s).reason = none) ∧
    (∀ fl, s.passed = false → s.firstFailure = some fl →
      (generateHookResponse s).decision = some "block" ∧
      (generateHookResponse s).reason = some
        ("Gate '" ++ fl.name ++ "' failed (exit "
          ++ exitCodeText fl.exitCode ++ "):\n"
          ++ formatFailureContext fl.stderr)) := by
  cases hp : s.passed with
  | true =>
      refine ⟨?_, fun _ => ⟨?_, ?_⟩, ?_⟩
      · simp [generateHookResponse, hp]
      · simp [generateHookResponse, hp]
      · simp [generateHookResponse, hp]
      · intro fl hfalse
        exact absurd hfalse (by simp)
  | false =>
      cases hf : s.firstFailure with
      | none =>
          refine ⟨?_, ?_, ?_⟩
          · simp [generateHookResponse, hp, hf]
          · intro habs
            exact absurd habs (by simp)
          · intro fl hfalse hsome
            exact absurd hsome (by simp)
      | some fl0 =>
          refine ⟨?_, ?_, ?_⟩
          · simp [generateHookResponse, hp, hf]
          · intro habs
            exact absurd habs (by simp)
          · intro fl hfalse hsome
            rw [Option.some_inj] at hsome
            subst hsome
            constructor
            · simp [generateHookResponse, hp, hf]
            · simp [generateHookResponse, hp, hf]

/-- C7 witness: on the scenario A summary the payload blocks with the
exact reason string for the typecheck failure, and on the scenario B
summary the non-empty warnings list is carried. -/
theorem c7_hook_response_witness :
    (generateHookResponse summaryABC).decision = some "block" ∧
      (generateHookResponse summaryABC).reason = some
        ("Gate '" ++ resultTypecheck.name ++ "' failed (exit "
          ++ exitCodeText resultTypecheck.exitCode ++ "):\n"
          ++ formatFailureContext resultTypecheck.stderr) ∧
      (generateHookResponse summaryB).warnings = some ["audit"] :=
  ⟨((c7_hook_response summaryABC).2.2 resultTypecheck rfl rfl).1,
    ((c7_hook_response summaryABC).2.2 resultTypecheck rfl rfl).2,
    ((c7_hook_response summaryB).1).trans (by decide)⟩

/-- C8: the executor's outcome passes exactly when the exit code is
zero; a resolved outcome exists whenever a finalizing event occurs (the
executor yields a value rather than propagating a fault); and both a
spawn error and a signal-terminated close record no exit code and a
failure. -/
theorem c8_exit_classification (gate : Gate) :
    (∀ (beh : GateBehavior) (r : GateResult), runGate gate beh = some r →
      ((r.passed = true ↔ r.exitCode = some 0) ∧
        (r.exitCode = none → r.passed = false))) ∧
    (∀ beh : GateBehavior, beh.events.any ProcEvent.isFinal = true →
      (runGate gate beh).isSome = true) ∧
    (∀ (pre : List ProcEvent) (m : String) (post : List ProcEvent)
      (d : Nat), pre.any ProcEvent.isFinal = false →
      ∃ r, runGate gate ⟨pre ++ ProcEvent.error m :: post, d⟩ = some r ∧
        r.exitCode = none ∧ r.passed = false) ∧
    (∀ (pre post : List ProcEvent) (d : Nat),
      pre.any ProcEvent.isFinal = false →
      ∃ r, runGate gate ⟨pre ++ ProcEvent.close none :: post, d⟩ = some r ∧
        r.exitCode = none ∧ r.passed = false) := by
  refine ⟨?_, ?_, ?_, ?_⟩
  · intro beh r h
    have h4 := (runGate_some_fields gate beh r h).2.2.2
    constructor
    · rw [h4, decide_eq_true_eq]
    · intro hnone
      rw [h4, hnone]
      rfl
  · intro beh hany
    exact runGate_isSome gate beh hany
  · intro pre m post d hpre
    exact ⟨_, runGate_error_spec gate d pre m post hpre, rfl, rfl⟩
  · intro pre post d hpre
    exact ⟨_, runGate_close_spec gate d pre none post hpre, rfl, rfl⟩

/-- C8 witness: a clean exit resolves the outcome, and a spawn error
yields a failing outcome with no exit code. -/
theorem c8_exit_classification_witness :
    ((runGate gateLint
        { events := [ProcEvent.close (some 0)], durationMs := 0 }).isSome
      = true) ∧
    (∃ r, runGate gateLint
        { events := [ProcEvent.error "spawn failed"], durationMs := 5 } =
          some r ∧ r.exitCode = none ∧ r.passed = false) :=
  ⟨(c8_exit_classification gateLint).2.1 _ (by decide),
    (c8_exit_classification gateLint).2.2.1 [] "spawn failed" [] 5
      (by decide)⟩

/-- C9: the outcome is frozen at the first finalizing event: any events
delivered after it leave the resolved value unchanged, and that value
exists. -/
theorem c9_finalize_once (gate : Gate) (pre : List ProcEvent)
    (e : ProcEvent) (post : List ProcEvent) (d : Nat)
    (h : e.isFinal = true) :
    runGate gate ⟨pre ++ e :: post, d⟩ = runGate gate ⟨pre ++ [e], d⟩ ∧
      (runGate gate ⟨pre ++ [e], d⟩).isSome = true := by
  constructor
  · show (List.foldl (procStep gate d) procState0
        (pre ++ e :: post)).result =
      (List.foldl (procStep gate d) procState0 (pre ++ [e])).result
    rw [show pre ++ e :: post = (pre ++ [e]) ++ post from by simp]
    rw [List.foldl_append]
    exact (foldl_result_frozen gate d post _
      (foldl_any_final_resolved gate d (pre ++ [e]) procState0
        (by simp [h]))).2
  · exact runGate_isSome gate ⟨pre ++ [e], d⟩ (by simp [h])

/-- C9 witness: a second close event after the first one leaves the
resolved outcome unchanged. -/
theorem c9_finalize_once_witness :
    runGate gateLint
        { events := [ProcEvent.close (some 0), ProcEvent.close (some 1)],
          durationMs := 5 } =
      runGate gateLint
        { events := [ProcEvent.close (some 0)], durationMs := 5 } ∧
      (runGate gateLint
        { events := [ProcEvent.close (some 0)], durationMs := 5 }).isSome
        = true :=
  c9_finalize_once gateLint [] (ProcEvent.close (some 0))
    [ProcEvent.close (some 1)] 5 rfl

/-- C10: when the spawn-level error event fires first, the resolved
outcome's stderr is the stderr captured so far with the error message
appended. -/
theorem c10_spawn_error_stderr (gate : Gate) (pre : List ProcEvent)
    (m : String) (post : List ProcEvent) (d : Nat)
    (hpre : pre.any ProcEvent.isFinal = false) :
    ∃ r, runGate gate ⟨pre ++ ProcEvent.error m :: post, d⟩ = some r ∧
      r.stderr = accumErr pre ++ m ∧ r.exitCode = none ∧
      r.passed = false :=
  ⟨_, runGate_error_spec gate d pre m post hpre, rfl, rfl, rfl⟩

/-- C10 witness: a spawn error after one stderr chunk resolves with that
chunk followed by the error message. -/
theorem c10_spawn_error_stderr_witness :
    ∃ r, runGate gateLint
        { events := [ProcEvent.dataErr "x", ProcEvent.error "boom"],
          durationMs := 7 } = some r ∧
      r.stderr = accumErr [ProcEvent.dataErr "x"] ++ "boom" ∧
      r.exitCode = none ∧ r.passed = false :=
  c10_spawn_error_stderr gateLint [ProcEvent.dataErr "x"] "boom" [] 7
    (by decide)

end RalphGate
